import Mathlib

/-!
Shallow embedding of `better_setuptools_git_version.py`.

The program shells out to git; we model each external invocation by a
`ProcResult` (exit status plus raw output) supplied by an environment
`GitEnv`, one result per fixed git command the program runs.
-/

/-- Result of running one external process: its exit status and its raw
captured output stream. -/
structure ProcResult where
  exitCode : Nat
  output : String
deriving DecidableEq

/-- Environment of external query results: one process result per git
command issued by the program (the tag listing, `git rev-list -n 1 <tag>`
parameterized by the tag, `git status -s`, and `git rev-parse HEAD`). -/
structure GitEnv where
  tagProc : ProcResult
  tagCommitProc : String → ProcResult
  statusProc : ProcResult
  headShaProc : ProcResult

/-- Embeds Python `str.strip()`: drop whitespace characters from both ends
of the character list. -/
def stripChars (l : List Char) : List Char :=
  ((l.dropWhile Char.isWhitespace).reverse.dropWhile Char.isWhitespace).reverse

/-- String-level wrapper for `stripChars`. -/
def pyStrip (s : String) : String :=
  String.mk (stripChars s.data)

/-- Embeds Python slicing `s[:n]` on strings: the first `n` characters. -/
def takeChars (s : String) (n : Nat) : String :=
  String.mk (s.data.take n)

/-- Embeds Python `c in s` for a single character `c`. -/
def containsChar (s : String) (c : Char) : Bool :=
  s.data.contains c

/-- Embeds `subprocess.check_output`: the raw output on exit status zero,
otherwise a `CalledProcessError` carrying the process result. -/
def check_output (r : ProcResult) : Except ProcResult String :=
  if r.exitCode = 0 then Except.ok r.output else Except.error r

/-- Embeds `_get_command_output`: run the command; on `CalledProcessError`
fall back to the error's captured output; strip surrounding whitespace. -/
def _get_command_output (r : ProcResult) : String :=
  pyStrip (match check_output r with
    | Except.ok output => output
    | Except.error e => e.output)

/-- Command line issued by `get_tag`. -/
def tagCmd : String := "git tag --sort=version:refname --merged | tail -n1"

/-- Command line issued by `get_tag_commit_sha` for a given tag
(the source interpolates the tag unescaped). -/
def tagCommitCmd (tag : String) : String := "git rev-list -n 1 " ++ tag

/-- Command line issued by `is_dirty`. -/
def statusCmd : String := "git status -s"

/-- Command line issued by `get_head_sha`. -/
def headShaCmd : String := "git rev-parse HEAD"

/-- Embeds `get_tag`: the last tag reachable from HEAD, empty when none. -/
def get_tag (env : GitEnv) : String :=
  _get_command_output env.tagProc

/-- Embeds `get_tag_commit_sha`: the commit the tag points to. -/
def get_tag_commit_sha (env : GitEnv) (tag : String) : String :=
  _get_command_output (env.tagCommitProc tag)

/-- Embeds `is_dirty`: true iff the stripped `git status -s` output is
non-empty. -/
def is_dirty (env : GitEnv) : Bool :=
  (_get_command_output env.statusProc).length != 0

/-- Embeds `get_head_sha`: the sha of HEAD. -/
def get_head_sha (env : GitEnv) : String :=
  _get_command_output env.headShaProc

/-- Embeds `is_head_at_tag`: whether HEAD's sha equals the tag's sha. -/
def is_head_at_tag (env : GitEnv) (tag : String) : Bool :=
  get_head_sha env == get_tag_commit_sha env tag

/-- Whether `pat` is a prefix of `s`, on character lists. -/
def startsWithList : List Char → List Char → Bool
  | [], _ => true
  | _ :: _, [] => false
  | p :: ps, c :: cs => p == c && startsWithList ps cs

/-- Whether `pat` occurs as a contiguous sublist of `s`. -/
def occursIn (pat : List Char) : List Char → Bool
  | [] => startsWithList pat []
  | c :: cs => startsWithList pat (c :: cs) || occursIn pat cs

/-- Whether `pat` is a suffix of `s`, on character lists. -/
def isSuffixList (pat s : List Char) : Bool :=
  startsWithList pat.reverse s.reverse

/-- Embeds Python `template.format(tag=..., sha=...)` for templates built
from the two placeholders the source documents: a single left-to-right
pass replacing each occurrence of the tag placeholder with `tag` and of
the sha placeholder with `sha`, copying every other character verbatim.
Substituted values are inserted verbatim, never rescanned. -/
def substPlaceholders (tag sha : String) : List Char → List Char
  | c1 :: c2 :: c3 :: c4 :: c5 :: rest =>
    if [c1, c2, c3, c4, c5] == "{tag}".data then
      tag.data ++ substPlaceholders tag sha rest
    else if [c1, c2, c3, c4, c5] == "{sha}".data then
      sha.data ++ substPlaceholders tag sha rest
    else
      c1 :: substPlaceholders tag sha (c2 :: c3 :: c4 :: c5 :: rest)
  | c :: rest => c :: substPlaceholders tag sha rest
  | [] => []

/-- String-level wrapper for `substPlaceholders`. -/
def formatTS (template tag sha : String) : String :=
  String.mk (substPlaceholders tag sha template.data)

/-- Embeds `get_version` (the resolver's main operation). The Python
defaults are `template = "{tag}.dev{sha}"`, `starting_version = "0.1.0"`. -/
def get_version (env : GitEnv) (template starting_version : String) : String :=
  let tag := get_tag env
  let version :=
    if tag.length = 0 then starting_version
    else if is_head_at_tag env tag then tag
    else formatTS template tag (takeChars (get_head_sha env) 8)
  if is_dirty env then
    let separator := if containsChar version '+' then "." else "+"
    version ++ separator ++ "dirty"
  else version

/-- The sequence of external commands `get_version` issues, in source
order: the tag query; then, when a tag exists, HEAD's sha and the tag's
sha for `is_head_at_tag`, plus a second HEAD query in the ahead-of-tag
branch; finally the status query. -/
def get_versionTrace (env : GitEnv) : List String :=
  let tag := get_tag env
  (if tag.length = 0 then [tagCmd]
   else if is_head_at_tag env tag then [tagCmd, headShaCmd, tagCommitCmd tag]
   else [tagCmd, headShaCmd, tagCommitCmd tag, headShaCmd]) ++ [statusCmd]

/-- Caller-side distribution object: the metadata version field the hook
mutates, plus an unrelated field to witness that nothing else changes. -/
structure PyDist where
  name : String
  metadata_version : Option String
deriving DecidableEq

/-- Python values a caller may pass as the `version_config` keyword:
a mapping (with string values), or a non-mapping value. -/
inductive ConfigValue where
  | mapping (entries : List (String × String))
  | list (items : List String)
  | str (s : String)
  | int (n : Int)
deriving DecidableEq

/-- Embeds `isinstance(config, collections.abc.Mapping)`. -/
def ConfigValue.isMapping : ConfigValue → Bool
  | .mapping _ => true
  | _ => false

/-- Outcome of the hook: a plain return (no value) or a raised TypeError. -/
inductive HookOutcome where
  | ok
  | typeError (msg : String)
deriving DecidableEq

/-- Result of one hook invocation: its outcome, the caller's `dist`
afterwards, and the external commands run during the call. -/
structure HookResult where
  outcome : HookOutcome
  dist : PyDist
  trace : List String
deriving DecidableEq

/-- The fixed TypeError message of `validate_version_config`. -/
def configErrorMsg : String :=
  "Config should be a dictionary with `version_format` and `starting_version` keys."

/-- Embeds `validate_version_config(dist, _, config)`: reject non-mapping
configs with a TypeError before anything else; otherwise read the two
optional keys (defaults `"0.1.0"` and `"{tag}.dev{sha}"`), compute
`get_version` and assign it to `dist.metadata.version`, returning no
value. -/
def validate_version_config (env : GitEnv) (dist : PyDist) (_u : String)
    (config : ConfigValue) : HookResult :=
  match config with
  | ConfigValue.mapping entries =>
    let starting_version :=
      match entries.lookup "starting_version" with
      | none => "0.1.0"
      | some v => v
    let template :=
      match entries.lookup "version_format" with
      | none => "{tag}.dev{sha}"
      | some v => v
    { outcome := HookOutcome.ok
      dist := { dist with
                metadata_version := some (get_version env template starting_version) }
      trace := get_versionTrace env }
  | _ => { outcome := HookOutcome.typeError configErrorMsg, dist := dist, trace := [] }

/-- Scenario C of the spec: tag `v1.2.0` not at HEAD, HEAD sha
`abcdef1234`, dirty tree. -/
def envScenarioC : GitEnv :=
  { tagProc := ProcResult.mk 0 "v1.2.0"
    tagCommitProc := fun _ => ProcResult.mk 0 "0000000000"
    statusProc := ProcResult.mk 0 "M file"
    headShaProc := ProcResult.mk 0 "abcdef1234" }

section helperLemmas

theorem data_append (a b : String) : (a ++ b).data = a.data ++ b.data := rfl

theorem string_data_ext {a b : String} (h : a.data = b.data) : a = b := by
  cases a
  cases b
  cases h
  rfl

theorem string_append_assoc (a b c : String) : a ++ b ++ c = a ++ (b ++ c) := by
  apply string_data_ext
  simp only [data_append, List.append_assoc]

theorem string_length_zero {s : String} (h : s.length = 0) : s = "" := by
  obtain ⟨l⟩ := s
  have hl : l.length = 0 := h
  rw [List.length_eq_zero] at hl
  rw [hl]

theorem startsWithList_append_self (p r : List Char) :
    startsWithList p (p ++ r) = true := by
  induction p with
  | nil => rfl
  | cons c cs ih => simp [startsWithList, ih]

theorem startsWithList_exists {p s : List Char} (h : startsWithList p s = true) :
    ∃ r, s = p ++ r := by
  induction p generalizing s with
  | nil => exact ⟨s, rfl⟩
  | cons c cs ih =>
    cases s with
    | nil => simp [startsWithList] at h
    | cons d ds =>
      simp only [startsWithList, Bool.and_eq_true, beq_iff_eq] at h
      obtain ⟨rfl, h2⟩ := h
      obtain ⟨r, rfl⟩ := ih h2
      exact ⟨r, rfl⟩

theorem suffixList_append_self (w p : List Char) :
    isSuffixList p (w ++ p) = true := by
  simp only [isSuffixList, List.reverse_append]
  exact startsWithList_append_self _ _

theorem suffixList_not_both {l : List Char}
    (h1 : isSuffixList "+dirty".data l = true)
    (h2 : isSuffixList ".dirty".data l = true) : False := by
  obtain ⟨r1, e1⟩ := startsWithList_exists h1
  obtain ⟨r2, e2⟩ := startsWithList_exists h2
  rw [e1] at e2
  have hlen : ("+dirty".data.reverse).length = (".dirty".data.reverse).length := by decide
  have := (List.append_inj e2 hlen).1
  simp at this

end helperLemmas

/-- Claim C5: an external query never surfaces a process failure; on
nonzero exit status the captured output is used as if the process had
succeeded, and in all cases the value used is the output stripped of
surrounding whitespace. -/
theorem command_output_failure_tolerant :
    (∀ r : ProcResult, r.exitCode ≠ 0 → _get_command_output r = pyStrip r.output) ∧
    (∀ r : ProcResult, _get_command_output r = pyStrip r.output) := by
  have hall : ∀ r : ProcResult, _get_command_output r = pyStrip r.output := by
    intro r
    by_cases h : r.exitCode = 0 <;> simp [_get_command_output, check_output, h]
  exact ⟨fun r _ => hall r, hall⟩

/-- Witness for C5 at a failed process (exit 1) with padded output. -/
theorem command_output_failure_tolerant_witness :
    (ProcResult.mk 1 "  v1.0\n").exitCode ≠ 0 ∧
      _get_command_output (ProcResult.mk 1 "  v1.0\n") = pyStrip "  v1.0\n" :=
  ⟨by decide, command_output_failure_tolerant.1 (ProcResult.mk 1 "  v1.0\n") (by decide)⟩

/-- Claim C2: with no tags (empty tag query result), `get_version`
returns `starting_version`, modulo the dirty suffix. -/
theorem get_version_no_tags (env : GitEnv) (t sv : String)
    (htag : get_tag env = "") :
    get_version env t sv =
      if is_dirty env then
        sv ++ (if containsChar sv '+' then ".dirty" else "+dirty")
      else sv := by
  simp only [get_version, htag]
  have h0 : ("" : String).length = 0 := rfl
  rw [if_pos h0]
  by_cases hd : is_dirty env
  · simp only [hd, if_true]
    by_cases hc : containsChar sv '+' <;>
      simp only [hc, if_true, if_false, Bool.false_eq_true] <;>
      rw [string_append_assoc] <;> rfl
  · simp [hd]

/-- Repository with no tags and a clean working tree (Scenario A). -/
def envNoTags : GitEnv :=
  { tagProc := ProcResult.mk 0 ""
    tagCommitProc := fun _ => ProcResult.mk 0 ""
    statusProc := ProcResult.mk 0 ""
    headShaProc := ProcResult.mk 0 "abc" }

/-- Witness for C2: no tags, clean tree, starting version `0.1.0`
(Scenario A of the spec). -/
theorem get_version_no_tags_witness :
    get_tag envNoTags = "" ∧
      get_version envNoTags "{tag}.dev{sha}" "0.1.0" = "0.1.0" := by
  refine ⟨by decide, ?_⟩
  rw [get_version_no_tags envNoTags "{tag}.dev{sha}" "0.1.0" (by decide)]
  decide


/-- Repository whose latest tag points at HEAD, with a clean tree
(Scenario B of the spec). -/
def envAtTag : GitEnv :=
  { tagProc := ProcResult.mk 0 "v1.2.0"
    tagCommitProc := fun _ => ProcResult.mk 0 "abcdef1234"
    statusProc := ProcResult.mk 0 ""
    headShaProc := ProcResult.mk 0 "abcdef1234" }

/-- Claim C3: with a non-empty latest tag whose commit equals HEAD's and
a clean tree, `get_version` returns exactly the tag, for every template
and starting version. -/
theorem get_version_at_tag_clean (env : GitEnv) (t sv : String)
    (h1 : get_tag env ≠ "")
    (h2 : get_head_sha env = get_tag_commit_sha env (get_tag env))
    (h3 : is_dirty env = false) :
    get_version env t sv = get_tag env := by
  have hlen : ¬(get_tag env).length = 0 := fun h => h1 (string_length_zero h)
  have hat : is_head_at_tag env (get_tag env) = true := by
    simp [is_head_at_tag, h2]
  simp only [get_version, hlen, if_false, hat, if_true, h3, Bool.false_eq_true]

/-- Witness for C3 at Scenario B: tag `v1.2.0` at HEAD, clean tree. -/
theorem get_version_at_tag_clean_witness :
    get_tag envAtTag ≠ "" ∧
      get_version envAtTag "{tag}.dev{sha}" "0.1.0" = "v1.2.0" := by
  refine ⟨by decide, ?_⟩
  rw [get_version_at_tag_clean envAtTag "{tag}.dev{sha}" "0.1.0" (by decide) (by decide) (by decide)]
  decide

/-- Claim C4: with a non-empty latest tag whose commit differs from
HEAD's, `get_version` returns the template with the tag substituted and
the first 8 characters of HEAD's sha substituted, modulo the dirty
suffix; and Scenario C evaluates to `v1.2.0.devabcdef12+dirty`. -/
theorem get_version_ahead_of_tag :
    (∀ (env : GitEnv) (t sv : String), get_tag env ≠ "" →
        get_head_sha env ≠ get_tag_commit_sha env (get_tag env) →
        get_version env t sv =
          (if is_dirty env then
            formatTS t (get_tag env) (takeChars (get_head_sha env) 8) ++
              (if containsChar (formatTS t (get_tag env) (takeChars (get_head_sha env) 8)) '+'
               then ".dirty" else "+dirty")
          else formatTS t (get_tag env) (takeChars (get_head_sha env) 8))) ∧
      get_version envScenarioC "{tag}.dev{sha}" "0.1.0" = "v1.2.0.devabcdef12+dirty" := by
  constructor
  · intro env t sv h1 h2
    have hlen : ¬(get_tag env).length = 0 := fun h => h1 (string_length_zero h)
    have hat : is_head_at_tag env (get_tag env) = false := by
      simp [is_head_at_tag, h2]
    simp only [get_version, hlen, if_false, hat, Bool.false_eq_true]
    by_cases hd : is_dirty env
    · simp only [hd, if_true]
      by_cases hc : containsChar (formatTS t (get_tag env) (takeChars (get_head_sha env) 8)) '+' <;>
        simp only [hc, if_true, if_false, Bool.false_eq_true] <;>
        rw [string_append_assoc] <;> rfl
    · simp [hd]
  · decide

/-- Witness for C4: its universal part applied to Scenario C's repository. -/
theorem get_version_ahead_of_tag_witness :
    get_tag envScenarioC ≠ "" ∧
      get_version envScenarioC "{tag}.dev{sha}" "0.1.0" =
        (if is_dirty envScenarioC then
          formatTS "{tag}.dev{sha}" (get_tag envScenarioC) (takeChars (get_head_sha envScenarioC) 8) ++
            (if containsChar (formatTS "{tag}.dev{sha}" (get_tag envScenarioC) (takeChars (get_head_sha envScenarioC) 8)) '+'
             then ".dirty" else "+dirty")
        else formatTS "{tag}.dev{sha}" (get_tag envScenarioC) (takeChars (get_head_sha envScenarioC) 8)) :=
  ⟨by decide, get_version_ahead_of_tag.1 envScenarioC "{tag}.dev{sha}" "0.1.0" (by decide) (by decide)⟩

/-- Claim C8: `get_version` is deterministic: two environments giving
identical results for every external query yield an identical string. -/
theorem get_version_deterministic (env1 env2 : GitEnv) (t sv : String)
    (h1 : get_tag env1 = get_tag env2)
    (h2 : get_head_sha env1 = get_head_sha env2)
    (h3 : ∀ tg, get_tag_commit_sha env1 tg = get_tag_commit_sha env2 tg)
    (h4 : is_dirty env1 = is_dirty env2) :
    get_version env1 t sv = get_version env2 t sv := by
  simp only [get_version, is_head_at_tag, h1, h2, h3, h4]

/-- Repository for the determinism witness, all queries succeeding. -/
def envDetA : GitEnv :=
  { tagProc := ProcResult.mk 0 "v3.0"
    tagCommitProc := fun _ => ProcResult.mk 0 "eee"
    statusProc := ProcResult.mk 0 ""
    headShaProc := ProcResult.mk 0 "fff12345678" }

/-- Same query outputs as `envDetA` but every process exits nonzero. -/
def envDetB : GitEnv :=
  { tagProc := ProcResult.mk 1 "v3.0"
    tagCommitProc := fun _ => ProcResult.mk 1 "eee"
    statusProc := ProcResult.mk 1 ""
    headShaProc := ProcResult.mk 1 "fff12345678" }

/-- Witness for C8: two environments with identical query results (one
with failing exit statuses) give the same version string. -/
theorem get_version_deterministic_witness :
    get_tag envDetA = get_tag envDetB ∧
      get_version envDetA "{tag}.dev{sha}" "0.1.0" = get_version envDetB "{tag}.dev{sha}" "0.1.0" :=
  ⟨by decide,
    get_version_deterministic envDetA envDetB "{tag}.dev{sha}" "0.1.0"
      (by decide) (by decide) (fun tg => rfl) (by decide)⟩

/-- Claim C1: when the tree is dirty, `get_version` equals the clean-case
version (the same repository with an empty status report) with exactly one
suffix appended: `.dirty` when the clean-case version contains a plus
character, `+dirty` otherwise. -/
theorem get_version_dirty_suffix_law (env : GitEnv) (t sv : String)
    (hd : is_dirty env = true) :
    get_version env t sv =
      get_version { env with statusProc := ProcResult.mk 0 "" } t sv ++
        (if containsChar (get_version { env with statusProc := ProcResult.mk 0 "" } t sv) '+'
         then ".dirty" else "+dirty") := by
  have hclean : is_dirty { env with statusProc := ProcResult.mk 0 "" } = false := rfl
  have htag : get_tag { env with statusProc := ProcResult.mk 0 "" } = get_tag env := rfl
  have hhead : get_head_sha { env with statusProc := ProcResult.mk 0 "" } = get_head_sha env := rfl
  have hcommit : ∀ tg, get_tag_commit_sha { env with statusProc := ProcResult.mk 0 "" } tg
      = get_tag_commit_sha env tg := fun _ => rfl
  simp only [get_version, is_head_at_tag, hclean, htag, hhead, hcommit, hd, if_true,
    Bool.false_eq_true, if_false]
  by_cases hc : containsChar
      (if (get_tag env).length = 0 then sv
       else if (get_head_sha env == get_tag_commit_sha env (get_tag env)) = true then get_tag env
       else formatTS t (get_tag env) (takeChars (get_head_sha env) 8)) '+' <;>
    simp only [hc, if_true, if_false, Bool.false_eq_true] <;>
    rw [string_append_assoc] <;> rfl

/-- Repository with a tag at HEAD and a dirty working tree. -/
def envAtTagDirty : GitEnv :=
  { tagProc := ProcResult.mk 0 "v1.2.0"
    tagCommitProc := fun _ => ProcResult.mk 0 "abcdef1234"
    statusProc := ProcResult.mk 0 "M file"
    headShaProc := ProcResult.mk 0 "abcdef1234" }

/-- Witness for C1: dirty tree at tag `v1.2.0`; the clean-case version has
no plus, so `+dirty` is appended. -/
theorem get_version_dirty_suffix_law_witness :
    is_dirty envAtTagDirty = true ∧
      get_version envAtTagDirty "{tag}.dev{sha}" "0.1.0" =
        get_version { envAtTagDirty with statusProc := ProcResult.mk 0 "" } "{tag}.dev{sha}" "0.1.0" ++
          (if containsChar (get_version { envAtTagDirty with statusProc := ProcResult.mk 0 "" } "{tag}.dev{sha}" "0.1.0") '+'
           then ".dirty" else "+dirty") :=
  ⟨by decide, get_version_dirty_suffix_law envAtTagDirty "{tag}.dev{sha}" "0.1.0" (by decide)⟩

/-- Repository with no tags and a dirty working tree. -/
def envNoTagsDirty : GitEnv :=
  { tagProc := ProcResult.mk 0 ""
    tagCommitProc := fun _ => ProcResult.mk 0 ""
    statusProc := ProcResult.mk 0 "M file"
    headShaProc := ProcResult.mk 0 "abc" }

/-- Counterexample to C9 as stated: with a dirty tree and starting
version `0+dirty`, the returned string `0+dirty.dirty` contains both the
`+dirty` and the `.dirty` suffix. -/
theorem dirty_suffix_containment_counterexample :
    is_dirty envNoTagsDirty = true ∧
      get_version envNoTagsDirty "{tag}.dev{sha}" "0+dirty" = "0+dirty.dirty" ∧
      occursIn "+dirty".data (get_version envNoTagsDirty "{tag}.dev{sha}" "0+dirty").data = true ∧
      occursIn ".dirty".data (get_version envNoTagsDirty "{tag}.dev{sha}" "0+dirty").data = true := by
  exact ⟨by decide, by decide, by decide, by decide⟩

/-- Amended claim C9: when the tree is dirty the returned string ends in
exactly one of `+dirty` or `.dirty` (one of them is its suffix and the
other is not); occurrences elsewhere in the string, inherited from the
template, tag or starting version, are possible. -/
theorem get_version_dirty_ends_with_one_suffix (env : GitEnv) (t sv : String)
    (hd : is_dirty env = true) :
    (isSuffixList "+dirty".data (get_version env t sv).data = true ∧
       isSuffixList ".dirty".data (get_version env t sv).data = false) ∨
    (isSuffixList ".dirty".data (get_version env t sv).data = true ∧
       isSuffixList "+dirty".data (get_version env t sv).data = false) := by
  simp only [get_version, hd, if_true]
  by_cases hc : containsChar
      (if (get_tag env).length = 0 then sv
       else if is_head_at_tag env (get_tag env) = true then get_tag env
       else formatTS t (get_tag env) (takeChars (get_head_sha env) 8)) '+'
  · refine Or.inr ⟨?_, ?_⟩
    · rw [if_pos hc, string_append_assoc]
      have : (("." : String) ++ "dirty") = ".dirty" := rfl
      rw [this, data_append]
      exact suffixList_append_self _ _
    · rw [if_pos hc, string_append_assoc]
      have heq : (("." : String) ++ "dirty") = ".dirty" := rfl
      rw [heq, data_append]
      cases hsuf : isSuffixList "+dirty".data (_ ++ ".dirty".data) with
      | false => rfl
      | true => exact (suffixList_not_both hsuf (suffixList_append_self _ _)).elim
  · refine Or.inl ⟨?_, ?_⟩
    · rw [if_neg hc, string_append_assoc]
      have : (("+" : String) ++ "dirty") = "+dirty" := rfl
      rw [this, data_append]
      exact suffixList_append_self _ _
    · rw [if_neg hc, string_append_assoc]
      have heq : (("+" : String) ++ "dirty") = "+dirty" := rfl
      rw [heq, data_append]
      cases hsuf : isSuffixList ".dirty".data (_ ++ "+dirty".data) with
      | false => rfl
      | true => exact (suffixList_not_both (suffixList_append_self _ _) hsuf).elim

/-- Witness for amended C9 at a dirty repository with no tags. -/
theorem get_version_dirty_ends_with_one_suffix_witness :
    is_dirty envNoTagsDirty = true ∧
      ((isSuffixList "+dirty".data (get_version envNoTagsDirty "{tag}.dev{sha}" "0.1.0").data = true ∧
          isSuffixList ".dirty".data (get_version envNoTagsDirty "{tag}.dev{sha}" "0.1.0").data = false) ∨
        (isSuffixList ".dirty".data (get_version envNoTagsDirty "{tag}.dev{sha}" "0.1.0").data = true ∧
          isSuffixList "+dirty".data (get_version envNoTagsDirty "{tag}.dev{sha}" "0.1.0").data = false)) :=
  ⟨by decide,
    get_version_dirty_ends_with_one_suffix envNoTagsDirty "{tag}.dev{sha}" "0.1.0" (by decide)⟩

/-- A distribution object as the packaging tool would pass it in. -/
def distPkg : PyDist := { name := "pkg", metadata_version := none }

/-- Claim C6: a non-mapping config makes the hook fail with the fixed
TypeError message, and a mapping config never raises that error. -/
theorem validate_config_type_check :
    (∀ (env : GitEnv) (dist : PyDist) (u : String) (c : ConfigValue),
        c.isMapping = false →
        (validate_version_config env dist u c).outcome = HookOutcome.typeError configErrorMsg) ∧
    (∀ (env : GitEnv) (dist : PyDist) (u : String) (entries : List (String × String)),
        (validate_version_config env dist u (ConfigValue.mapping entries)).outcome = HookOutcome.ok) := by
  constructor
  · intro env dist u c hc
    cases c with
    | mapping entries => simp [ConfigValue.isMapping] at hc
    | list items => rfl
    | str s => rfl
    | int n => rfl
  · intro env dist u entries
    rfl

/-- Witness for C6: a plain list config (Scenario D) raises the fixed
message. -/
theorem validate_config_type_check_witness :
    (ConfigValue.list []).isMapping = false ∧
      (validate_version_config envNoTags distPkg "version_config" (ConfigValue.list [])).outcome =
        HookOutcome.typeError configErrorMsg :=
  ⟨by decide,
    validate_config_type_check.1 envNoTags distPkg "version_config" (ConfigValue.list []) (by decide)⟩

/-- Claim C7: on a mapping config the hook computes `get_version` with
`starting_version` from the `starting_version` key (default `0.1.0`) and
the template from the `version_format` key (default the tag.dev-sha
template), stores the result in the metadata version field, and returns
no value; the rest of `dist` is untouched. -/
theorem validate_config_applies (env : GitEnv) (dist : PyDist) (u : String)
    (entries : List (String × String)) :
    validate_version_config env dist u (ConfigValue.mapping entries) =
      { outcome := HookOutcome.ok
        dist := { dist with
                  metadata_version := some (get_version env
                    (match entries.lookup "version_format" with
                      | none => "{tag}.dev{sha}"
                      | some v => v)
                    (match entries.lookup "starting_version" with
                      | none => "0.1.0"
                      | some v => v)) }
        trace := get_versionTrace env } := rfl

/-- Claim C10: the hook validates before doing anything else: on a
non-mapping config it raises the TypeError having run no external
command and with the caller's `dist` object unchanged. -/
theorem validate_config_rejects_before_queries (env : GitEnv) (dist : PyDist)
    (u : String) (c : ConfigValue) (hc : c.isMapping = false) :
    validate_version_config env dist u c =
      { outcome := HookOutcome.typeError configErrorMsg, dist := dist, trace := [] } := by
  cases c with
  | mapping entries => simp [ConfigValue.isMapping] at hc
  | list items => rfl
  | str s => rfl
  | int n => rfl

/-- Witness for C10: rejecting a string config runs no command and keeps
`dist` intact. -/
theorem validate_config_rejects_before_queries_witness :
    (ConfigValue.str "1.0").isMapping = false ∧
      validate_version_config envNoTags distPkg "version_config" (ConfigValue.str "1.0") =
        { outcome := HookOutcome.typeError configErrorMsg, dist := distPkg, trace := [] } :=
  ⟨by decide,
    validate_config_rejects_before_queries envNoTags distPkg "version_config"
      (ConfigValue.str "1.0") (by decide)⟩
